import Mathlib

/-!
Verification development for the `bevy-steam-audio` repository.

The core object is the streaming decoder `SteamDecoder` of `src/source.rs`:
a pull-based renderer that refills a double output block from an upstream
mono sample stream, applies the direct effect and then the binaural effect
to each frame, and serves the two processed channel blocks interleaved,
one sample per pull.

The external `steam_audio` crate objects are kept at the boundary the spec
draws (section 6): the frame-buffer refill `push_source` is modelled from
the spec's section 4.1 contract, and the two effect applications are
abstract fallible functions carried in an `EffectConfig`, so every theorem
about the decoder holds for any effect implementation meeting the boundary
contract.  The mesh conversion `TryFrom<Mesh> for AudioMesh` is embedded
directly.  Machine integers of the source (`u32` offsets, `u16`/`u32`
indices) are modelled as `Nat`; no arithmetic in the translated code can
overflow a 32-bit counter for the claim inputs considered, and index casts
`u16 as u32` are value-preserving.
-/

/-- Result of one `next` pull on the decoder, `src/source.rs:130`.
`sample v` is `Some(v)`, `eos` is `None` (upstream exhausted),
`panicked` is a Rust panic (an `unwrap` of an `Err`, or an out-of-bounds
index), and `spun` marks a non-terminating loop (never reached for a
positive frame size). -/
inductive NextResult (Q : Type) where
  | sample (v : Q)
  | eos
  | panicked
  | spun
deriving DecidableEq

/-- The per-frame direct-effect parameters set at `src/source.rs:205-207`.
The scalar payloads produced by the external attenuation / absorption /
directivity models are abstracted by the type `P`. -/
structure DirectEffectParams (P : Type) where
  distanceAttenuation : P
  airAbsorption : P
  directivity : P
deriving DecidableEq

/-- The boundary to the external `steam_audio` crate (spec section 6):
the audio-settings frame size, the three model evaluators
(`DistanceAttenuationModel::calculate`, `AirAbsorptionModel::calculate`,
`Directivity::calculate` at `src/source.rs:176-203` — the directivity
model is called with a constant orientation and dipole, so only the
listener position varies), and the two fallible effect applications
(`DirectEffect::apply_to_buffer`, `BinauralEffect::apply_to_buffer`).
`Q` is the sample type, `V` the vector type, `P` the parameter payload. -/
structure EffectConfig (Q V P : Type) where
  frameSize : Nat
  attenuationCalculate : V → V → P
  absorptionCalculate : V → V → P
  directivityCalculate : V → P
  directApply : DirectEffectParams P → List Q → Except Unit (List Q)
  binauralApply : V → List Q → Except Unit (List Q × List Q)

/-- The mutable state of a `SteamDecoder` (`src/source.rs:44-61`).
`upstream` models the remaining raw mono samples of the `rodio::Decoder`;
`direction`, `sourcePosition`, `listenerPosition` are the values read from
the shared `Arc<Mutex<Vec3>>` cells (a snapshot: the concurrent writer is
outside this model). -/
structure DecoderState (Q V : Type) where
  upstream : List Q
  sampleRate : Nat
  currentChannel : Bool
  currentBlockOffset : Nat
  currentBlock1 : List Q
  currentBlock2 : List Q
  blocksPlayed : Nat
  direction : V
  sourcePosition : V
  listenerPosition : V
deriving DecidableEq

/-- Modelled from the spec: `DeinterleavedFrame::push_source` on a
one-channel frame (spec section 4.1).  It pulls up to `frameSize` raw
samples from the upstream stream; if fewer are available the refill
reports exhaustion (`none`) with the short remainder consumed and the
frame contents unusable — no silent zero-padding.  Returns the pulled
frame (or `none`) together with the remaining upstream samples. -/
def pushSource {Q : Type} (frameSize : Nat) (upstream : List Q) :
    Option (List Q) × List Q :=
  if frameSize ≤ upstream.length then
    (some (upstream.take frameSize), upstream.drop frameSize)
  else
    (none, [])

/-- The per-frame parameter recomputation of `src/source.rs:176-207`:
distance attenuation and air absorption from the source/listener
positions, directivity from the (fixed) source orientation and the
listener position, written into `direct_params`. -/
def mkDirectParams {Q V P : Type} (cfg : EffectConfig Q V P)
    (sourcePos listenerPos : V) : DirectEffectParams P :=
  { distanceAttenuation := cfg.attenuationCalculate sourcePos listenerPos
  , airAbsorption := cfg.absorptionCalculate sourcePos listenerPos
  , directivity := cfg.directivityCalculate listenerPos }

/-- One iteration of the `loop` in `<SteamDecoder as Iterator>::next`
(`src/source.rs:130-231`).  `Sum.inl` is a `return` out of the loop,
`Sum.inr` continues the loop with the refilled state.

Serve branch (lines 133-146): while the read offset is inside the current
block, serve `current_block1[offset]` when `current_channel` is true, else
`current_block2[offset]` and advance the offset; the channel flag flips
every pull.  An out-of-bounds `current_block2` index is a Rust panic.

Refill branch (lines 148-229): reset the offset, pull one mono frame
(`push_source`); on exhaustion return `None` (`eos`); otherwise recompute
the direct parameters from the shared cells, apply the direct effect from
the input frame into the intermediate frame, then the binaural effect with
the current direction into the two-channel output frame (both `unwrap`ped:
an `Err` panics), store the two output channels and continue the loop. -/
def nextStep {Q V P : Type} (cfg : EffectConfig Q V P) (s : DecoderState Q V) :
    Sum (NextResult Q × DecoderState Q V) (DecoderState Q V) :=
  if h : s.currentBlockOffset < s.currentBlock1.length then
    if s.currentChannel then
      Sum.inl (NextResult.sample (s.currentBlock1.get ⟨s.currentBlockOffset, h⟩),
        { s with currentChannel := false })
    else
      if h2 : s.currentBlockOffset < s.currentBlock2.length then
        Sum.inl (NextResult.sample (s.currentBlock2.get ⟨s.currentBlockOffset, h2⟩),
          { s with currentBlockOffset := s.currentBlockOffset + 1, currentChannel := true })
      else
        Sum.inl (NextResult.panicked, s)
  else
    match pushSource cfg.frameSize s.upstream with
    | (none, rest) =>
        Sum.inl (NextResult.eos, { s with currentBlockOffset := 0, upstream := rest })
    | (some frame, rest) =>
        match cfg.directApply (mkDirectParams cfg s.sourcePosition s.listenerPosition) frame with
        | Except.error _ =>
            Sum.inl (NextResult.panicked, { s with currentBlockOffset := 0, upstream := rest })
        | Except.ok inter =>
            match cfg.binauralApply s.direction inter with
            | Except.error _ =>
                Sum.inl (NextResult.panicked, { s with currentBlockOffset := 0, upstream := rest })
            | Except.ok (b1, b2) =>
                Sum.inr { s with
                          currentBlockOffset := 0
                          upstream := rest
                          currentBlock1 := b1
                          currentBlock2 := b2
                          blocksPlayed := s.blocksPlayed + 1 }

/-- Fuel-bounded unfolding of the decoder `loop`.  Out of fuel gives
`spun`; with the fuel chosen by `next` this is reached only in the
degenerate situation where the Rust loop itself does not terminate
(a zero frame size with length-zero effect output). -/
def nextLoop {Q V P : Type} (cfg : EffectConfig Q V P) :
    Nat → DecoderState Q V → NextResult Q × DecoderState Q V
  | 0, s => (NextResult.spun, s)
  | fuel + 1, s =>
      match nextStep cfg s with
      | Sum.inl r => r
      | Sum.inr s2 => nextLoop cfg fuel s2

/-- `<SteamDecoder as Iterator>::next` (`src/source.rs:130`): run the loop.
Every successful refill strictly consumes upstream samples when the frame
size is positive, so `upstream.length + 2` rounds of fuel always suffice. -/
def next {Q V P : Type} (cfg : EffectConfig Q V P) (s : DecoderState Q V) :
    NextResult Q × DecoderState Q V :=
  nextLoop cfg (s.upstream.length + 2) s

/-- `n` successive sample pulls: the list of pull results in order, and
the final decoder state. -/
def pulls {Q V P : Type} (cfg : EffectConfig Q V P) :
    Nat → DecoderState Q V → List (NextResult Q) × DecoderState Q V
  | 0, s => ([], s)
  | n + 1, s =>
      let r := next cfg s
      let rs := pulls cfg n r.2
      (r.1 :: rs.1, rs.2)

/-- Interleave two equal-length channel blocks into one L,R,L,R,... list. -/
def interleave {Q : Type} : List Q → List Q → List Q
  | x :: xs, y :: ys => x :: y :: interleave xs ys
  | _, _ => []

/-- `SteamDecoder::new` (`src/source.rs:63-123`): the initial decoder
state.  `nativeSampleRate` is the sample rate of the decoded source file
(what `rodio` reports for the opened file); the constructor never consults
it — line 97 hardcodes `sample_rate = 44_100`.  The blocks start empty,
the offset at 0, the channel flag at `true` (channel 0 first), and no
blocks played. -/
def SteamDecoder.new {Q V : Type} (_nativeSampleRate : Nat)
    (direction sourcePosition listenerPosition : V) (upstream : List Q) :
    DecoderState Q V :=
  { upstream := upstream
  , sampleRate := 44100
  , currentChannel := true
  , currentBlockOffset := 0
  , currentBlock1 := []
  , currentBlock2 := []
  , blocksPlayed := 0
  , direction := direction
  , sourcePosition := sourcePosition
  , listenerPosition := listenerPosition }

/-- `Source::channels` (`src/source.rs:241-243`): constant 2. -/
def SteamDecoder.channels {Q V : Type} (_ : DecoderState Q V) : Nat := 2

/-- `Source::current_frame_len` (`src/source.rs:237-239`): `None`. -/
def SteamDecoder.currentFrameLen {Q V : Type} (_ : DecoderState Q V) : Option Nat := none

/-- `Source::total_duration` (`src/source.rs:249-251`): `None`. -/
def SteamDecoder.totalDuration {Q V : Type} (_ : DecoderState Q V) : Option Nat := none

/-- `Source::sample_rate` (`src/source.rs:245-247`): the stored field. -/
def SteamDecoder.sampleRate {Q V : Type} (s : DecoderState Q V) : Nat :=
  s.sampleRate

/-- A concrete effect configuration over `Int` samples for evaluating the
decoder on test inputs: frame size 2, the direct effect passes the mono
frame through, the binaural effect duplicates it into both output
channels.  Both satisfy the boundary contract (output blocks have the
frame length of their input). -/
def intCfg : EffectConfig Int Int Int :=
  { frameSize := 2
  , attenuationCalculate := fun _ _ => 0
  , absorptionCalculate := fun _ _ => 0
  , directivityCalculate := fun _ => 0
  , directApply := fun _ frame => Except.ok frame
  , binauralApply := fun _ inter => Except.ok (inter, inter) }

/-- `intCfg` with a direct effect that always fails, modelling a
`DirectEffect::apply_to_buffer` call returning `Err` (malformed buffer
sizes, uninitialized native state). -/
def failCfg : EffectConfig Int Int Int :=
  { intCfg with directApply := fun _ _ => Except.error () }

/-- A fresh decoder over an upstream of exactly one frame (frame size 2). -/
def exhaustState : DecoderState Int Int :=
  SteamDecoder.new 44100 0 0 0 [10, 20]

/-- A fresh decoder over an upstream of three frames (frame size 2). -/
def freshSixState : DecoderState Int Int :=
  SteamDecoder.new 44100 0 0 0 [1, 2, 3, 4, 5, 6]

/-- One native steam-audio construction event.  `SteamDecoder::new`
(`src/source.rs:79-94`) and `SpatialAudioPlugin::build`
(`src/source.rs:290-294`) each call the native constructors
`Context::new`, `HRTF::new`, `Simulator::new` (and, in `new`,
`BinauralEffect::new` and `DirectEffect::new`); every call allocates a
fresh native object.  The allocator hands out a fresh identity per
constructed object so that sharing (or its absence) is observable. -/
structure Alloc where
  counter : Nat
deriving DecidableEq

/-- Allocate one fresh native object identity. -/
def allocFresh (a : Alloc) : Nat × Alloc :=
  (a.counter, ⟨a.counter + 1⟩)

/-- The five native objects a single `SteamDecoder::new` constructs and
stores in its `settings` (`src/source.rs:79-94` and 109-117). -/
structure DecoderResources where
  contextId : Nat
  hrtfId : Nat
  simulatorId : Nat
  binauralEffectId : Nat
  directEffectId : Nat
deriving DecidableEq

/-- The construction side of `SteamDecoder::new` (`src/source.rs:63-123`):
`Context::new` (line 79), `HRTF::new` (line 80), `Simulator::new`
(line 82), `BinauralEffect::new` (line 88), `DirectEffect::new`
(line 94), each a fresh native object owned by this decoder instance. -/
def steamDecoderNewResources (a : Alloc) : DecoderResources × Alloc :=
  let rc := allocFresh a
  let rh := allocFresh rc.2
  let rs := allocFresh rh.2
  let rb := allocFresh rs.2
  let rd := allocFresh rb.2
  ({ contextId := rc.1
   , hrtfId := rh.1
   , simulatorId := rs.1
   , binauralEffectId := rb.1
   , directEffectId := rd.1 }, rd.2)

/-- The three native objects `SpatialAudioPlugin::build` constructs and
inserts as the `SpatialAudioSettings` resource (`src/source.rs:283-306`). -/
structure PluginResources where
  contextId : Nat
  hrtfId : Nat
  simulatorId : Nat
deriving DecidableEq

/-- The construction side of `SpatialAudioPlugin::build`
(`src/source.rs:283-306`): `Context::new` (line 290), `HRTF::new`
(line 291), `Simulator::new` (line 293), stored in the app resource. -/
def spatialAudioPluginBuildResources (a : Alloc) : PluginResources × Alloc :=
  let rc := allocFresh a
  let rh := allocFresh rc.2
  let rs := allocFresh rh.2
  ({ contextId := rc.1, hrtfId := rh.1, simulatorId := rs.1 }, rs.2)

/-- A process run starting from a fresh allocator: the plugin builds its
resource, then two decoders are created (`Decodable::decoder`,
`src/source.rs:259-266`, calls `SteamDecoder::new` once per decoder). -/
def pluginRun : PluginResources × Alloc :=
  spatialAudioPluginBuildResources ⟨0⟩

/-- First decoder created after the plugin. -/
def decoderRun1 : DecoderResources × Alloc :=
  steamDecoderNewResources pluginRun.2

/-- Second decoder created after the first. -/
def decoderRun2 : DecoderResources × Alloc :=
  steamDecoderNewResources decoderRun1.2

/-- The index buffer of a bevy `Mesh`: `Indices::U16` or `Indices::U32`
(`src/source.rs:395-400`).  Both are embedded as `Nat` lists; the code
maps `U16` values through a value-preserving `as u32` cast. -/
inductive MeshIndices where
  | u16 (l : List Nat)
  | u32 (l : List Nat)
deriving DecidableEq

/-- The bevy `PrimitiveTopology` variants. -/
inductive PrimitiveTopology where
  | PointList
  | LineList
  | LineStrip
  | TriangleList
  | TriangleStrip
deriving DecidableEq

/-- The position vertex attribute: the `Float32x3` layout the conversion
accepts (coordinates embedded as rational triples), or any other layout
(all rejected alike at `src/source.rs:432`). -/
inductive VertexAttributeValues where
  | Float32x3 (l : List (Rat × Rat × Rat))
  | otherLayout
deriving DecidableEq

/-- The parts of a bevy `Mesh` the conversion reads: the optional index
buffer, the primitive topology, and the optional position attribute. -/
structure Mesh where
  indices : Option MeshIndices
  primitiveTopology : PrimitiveTopology
  positionAttribute : Option VertexAttributeValues
deriving DecidableEq

/-- The acoustic material; the conversion always uses the single
`steam_audio::materials::GENERIC` entry (`src/source.rs:437`). -/
inductive Material where
  | GENERIC
deriving DecidableEq

/-- The conversion output (`src/source.rs:377-382`). -/
structure AudioMesh where
  vertices : List (Rat × Rat × Rat)
  triangles : List (Nat × Nat × Nat)
  materials : List Material
  materialIndices : List Nat
deriving DecidableEq

/-- The error type of the conversion (`src/source.rs:384-388`). -/
inductive AudioMeshError where
  | NoVertices
  | NonTrianglePrimitiveTopology (t : PrimitiveTopology)
deriving DecidableEq

/-- `indices.chunks_exact(3)` mapped to triples (`src/source.rs:403-406`):
groups of three consecutive indices; a trailing remainder of one or two
indices is not part of any chunk. -/
def chunksExact3 : List Nat → List (Nat × Nat × Nat)
  | a :: b :: c :: rest => (a, b, c) :: chunksExact3 rest
  | _ => []

/-- `indices.windows(3)` mapped to triples (`src/source.rs:408-411`):
every window of three consecutive indices. -/
def windows3 : List Nat → List (Nat × Nat × Nat)
  | a :: b :: c :: rest => (a, b, c) :: windows3 (b :: c :: rest)
  | _ => []

/-- Swap the first two indices of a triangle (`src/source.rs:415`). -/
def swapTri (t : Nat × Nat × Nat) : Nat × Nat × Nat :=
  (t.2.1, t.1, t.2.2)

/-- The winding fix-up loop over `iter_mut().enumerate()`
(`src/source.rs:413-417`): the triangle at position `index` has its first
two indices swapped when `(index + 1) % 2 == 0`, i.e. for every second
triangle.  `j` is the enumeration index of the head of the list. -/
def alternateWinding (j : Nat) : List (Nat × Nat × Nat) → List (Nat × Nat × Nat)
  | [] => []
  | t :: rest =>
      (if (j + 1) % 2 = 0 then swapTri t else t) :: alternateWinding (j + 1) rest

/-- The `U16`/`U32` unification of `src/source.rs:395-400`: both index
widths become a `u32` (here `Nat`) list, values unchanged. -/
def castIndices : MeshIndices → List Nat
  | MeshIndices.u16 l => l
  | MeshIndices.u32 l => l

/-- The triangle computation of `TryFrom<Mesh> for AudioMesh`
(`src/source.rs:393-425`), evaluated first: with an index buffer present,
a `TriangleList` topology takes exact 3-chunks, a `TriangleStrip`
topology takes 3-windows with alternating winding, and any other topology
is the `NonTrianglePrimitiveTopology` error; with no index buffer the
triangle list is empty and the topology is never examined. -/
def trianglesOf (m : Mesh) : Except AudioMeshError (List (Nat × Nat × Nat)) :=
  match m.indices with
  | some idx =>
      match m.primitiveTopology with
      | PrimitiveTopology.TriangleList => Except.ok (chunksExact3 (castIndices idx))
      | PrimitiveTopology.TriangleStrip =>
          Except.ok (alternateWinding 0 (windows3 (castIndices idx)))
      | t => Except.error (AudioMeshError.NonTrianglePrimitiveTopology t)
  | none => Except.ok []

/-- `TryFrom<Mesh> for AudioMesh` (`src/source.rs:390-447`): compute the
triangles (above), then read the position attribute — absent or non
`Float32x3` is the `NoVertices` error — and emit the `GENERIC` material
with one material index 0 per triangle. -/
def audioMeshTryFrom (m : Mesh) : Except AudioMeshError AudioMesh :=
  match trianglesOf m with
  | Except.error e => Except.error e
  | Except.ok triangles =>
      match m.positionAttribute with
      | some (VertexAttributeValues.Float32x3 vs) =>
          Except.ok
            { vertices := vs
            , triangles := triangles
            , materials := [Material.GENERIC]
            , materialIndices := triangles.map (fun _ => 0) }
      | _ => Except.error AudioMeshError.NoVertices

/-- The triangle list of a successful conversion, `[]` on failure. -/
def audioMeshTrianglesD (m : Mesh) : List (Nat × Nat × Nat) :=
  match audioMeshTryFrom m with
  | Except.ok am => am.triangles
  | Except.error _ => []

/-- A mesh with an index buffer, a non-triangle topology and no position
attribute. -/
def lineListMesh : Mesh :=
  ⟨some (MeshIndices.u32 [0]), PrimitiveTopology.LineList, none⟩

/-- A mesh with an index buffer, a non-triangle strip topology and a
position attribute. -/
def lineStripMesh : Mesh :=
  ⟨some (MeshIndices.u32 [0, 1]), PrimitiveTopology.LineStrip,
   some (VertexAttributeValues.Float32x3 [])⟩

/-- A mesh with positions but no index buffer, on a non-triangle
topology. -/
def noIndexMesh : Mesh :=
  ⟨none, PrimitiveTopology.PointList,
   some (VertexAttributeValues.Float32x3 [(1, 2, 3)])⟩

/-- A triangle-list mesh whose index count is not a multiple of three. -/
def listMesh4 : Mesh :=
  ⟨some (MeshIndices.u32 [0, 1, 2, 3]), PrimitiveTopology.TriangleList,
   some (VertexAttributeValues.Float32x3 [(0, 0, 0)])⟩

/-- Three-component real vector, for the spatial-state direction cell
(`SteamAudio.direction`, `src/source.rs:34-40`). -/
structure Vec3R where
  x : Real
  y : Real
  z : Real

/-- The zero vector. -/
def Vec3R.zero : Vec3R := ⟨0, 0, 0⟩

/-- Componentwise difference. -/
noncomputable def Vec3R.sub (a b : Vec3R) : Vec3R :=
  ⟨a.x - b.x, a.y - b.y, a.z - b.z⟩

/-- Scalar multiple. -/
noncomputable def Vec3R.smul (c : Real) (v : Vec3R) : Vec3R :=
  ⟨c * v.x, c * v.y, c * v.z⟩

/-- Squared euclidean length. -/
noncomputable def Vec3R.normSq (v : Vec3R) : Real :=
  v.x ^ 2 + v.y ^ 2 + v.z ^ 2

open scoped Classical in
/-- Modelled from the spec: the repository never writes the shared
`direction` cell — `listener_update` (`src/source.rs:353-375`) only
pushes the listener orientation into the simulator's shared inputs — so
the per-frame direction write of spec section 4.4 ("computes each active
source's direction relative to the listener ... normalize — zero vector
if coincident") is modelled here from the spec's words: the source-to-
listener difference, normalized, degenerating to the zero vector instead
of dividing by zero when the two positions coincide.  (The listener-local
rotation the spec mentions is an orthonormal change of basis and cannot
change vector length, so it is omitted; over the reals no NaN exists, the
coincident-positions guard is exactly what removes the division by
zero.) -/
noncomputable def directionWrite (sourcePos listenerPos : Vec3R) : Vec3R :=
  if Vec3R.normSq (Vec3R.sub listenerPos sourcePos) = 0 then Vec3R.zero
  else
    Vec3R.smul (Real.sqrt (Vec3R.normSq (Vec3R.sub listenerPos sourcePos)))⁻¹
      (Vec3R.sub listenerPos sourcePos)

/-- A mid-stream decoder state about to serve the left sample of the
pair at offset 0 of its current output blocks. -/
def serveStateL : DecoderState Int Int :=
  ⟨[], 44100, true, 0, [1, 2], [3, 4], 1, 0, 0, 0⟩

/-- `serveStateL` after its left sample has been served: the right
sample of the pair at offset 0 is next. -/
def serveStateR : DecoderState Int Int :=
  ⟨[], 44100, false, 0, [1, 2], [3, 4], 1, 0, 0, 0⟩

lemma nextLoop_succ_of_inl {Q V P : Type} {cfg : EffectConfig Q V P}
    {s : DecoderState Q V} {r : NextResult Q × DecoderState Q V}
    (hstep : nextStep cfg s = Sum.inl r) (fuel : Nat) :
    nextLoop cfg (fuel + 1) s = r := by
  simp [nextLoop, hstep]

lemma nextLoop_succ_of_inr {Q V P : Type} {cfg : EffectConfig Q V P}
    {s s2 : DecoderState Q V}
    (hstep : nextStep cfg s = Sum.inr s2) (fuel : Nat) :
    nextLoop cfg (fuel + 1) s = nextLoop cfg fuel s2 := by
  simp [nextLoop, hstep]

lemma next_of_inl {Q V P : Type} {cfg : EffectConfig Q V P}
    {s : DecoderState Q V} {r : NextResult Q × DecoderState Q V}
    (hstep : nextStep cfg s = Sum.inl r) :
    next cfg s = r :=
  nextLoop_succ_of_inl hstep (s.upstream.length + 1)

lemma next_of_inr {Q V P : Type} {cfg : EffectConfig Q V P}
    {s s2 : DecoderState Q V}
    (hstep : nextStep cfg s = Sum.inr s2) :
    next cfg s = nextLoop cfg (s.upstream.length + 1) s2 :=
  nextLoop_succ_of_inr hstep (s.upstream.length + 1)

lemma nextStep_serve_left {Q V P : Type} (cfg : EffectConfig Q V P)
    {s : DecoderState Q V}
    (h : s.currentBlockOffset < s.currentBlock1.length)
    (hch : s.currentChannel = true) :
    nextStep cfg s =
      Sum.inl (NextResult.sample (s.currentBlock1.get ⟨s.currentBlockOffset, h⟩),
        { s with currentChannel := false }) := by
  simp [nextStep, h, hch]

lemma nextStep_serve_right {Q V P : Type} (cfg : EffectConfig Q V P)
    {s : DecoderState Q V}
    (h : s.currentBlockOffset < s.currentBlock1.length)
    (hch : s.currentChannel = false)
    (h2 : s.currentBlockOffset < s.currentBlock2.length) :
    nextStep cfg s =
      Sum.inl (NextResult.sample (s.currentBlock2.get ⟨s.currentBlockOffset, h2⟩),
        { s with
          currentBlockOffset := s.currentBlockOffset + 1
          currentChannel := true }) := by
  simp [nextStep, h, hch, h2]

lemma next_serve_left {Q V P : Type} (cfg : EffectConfig Q V P)
    {s : DecoderState Q V}
    (h : s.currentBlockOffset < s.currentBlock1.length)
    (hch : s.currentChannel = true) :
    next cfg s =
      (NextResult.sample (s.currentBlock1.get ⟨s.currentBlockOffset, h⟩),
        { s with currentChannel := false }) :=
  next_of_inl (nextStep_serve_left cfg h hch)

lemma next_serve_right {Q V P : Type} (cfg : EffectConfig Q V P)
    {s : DecoderState Q V}
    (h : s.currentBlockOffset < s.currentBlock1.length)
    (hch : s.currentChannel = false)
    (h2 : s.currentBlockOffset < s.currentBlock2.length) :
    next cfg s =
      (NextResult.sample (s.currentBlock2.get ⟨s.currentBlockOffset, h2⟩),
        { s with
          currentBlockOffset := s.currentBlockOffset + 1
          currentChannel := true }) :=
  next_of_inl (nextStep_serve_right cfg h hch h2)

lemma pushSource_some {Q : Type} {frameSize : Nat} {u frame rest : List Q}
    (h : pushSource frameSize u = (some frame, rest)) :
    frame = u.take frameSize ∧ rest = u.drop frameSize ∧ frameSize ≤ u.length := by
  by_cases hle : frameSize ≤ u.length
  · simp [pushSource, hle] at h
    exact ⟨h.1.symm, h.2.symm, hle⟩
  · simp [pushSource, hle] at h

lemma nextStep_refill {Q V P : Type} (cfg : EffectConfig Q V P)
    {s : DecoderState Q V}
    (h : ¬ s.currentBlockOffset < s.currentBlock1.length)
    {frame rest inter b1 b2 : List Q}
    (hpush : pushSource cfg.frameSize s.upstream = (some frame, rest))
    (hdir : cfg.directApply
        (mkDirectParams cfg s.sourcePosition s.listenerPosition) frame
      = Except.ok inter)
    (hbin : cfg.binauralApply s.direction inter = Except.ok (b1, b2)) :
    nextStep cfg s = Sum.inr { s with
      currentBlockOffset := 0
      upstream := rest
      currentBlock1 := b1
      currentBlock2 := b2
      blocksPlayed := s.blocksPlayed + 1 } := by
  simp [nextStep, h, hpush, hdir, hbin]

lemma next_refill_serve {Q V P : Type} (cfg : EffectConfig Q V P)
    {s : DecoderState Q V}
    (h : ¬ s.currentBlockOffset < s.currentBlock1.length)
    {frame rest inter : List Q} {x : Q} {t1 b2 : List Q}
    (hpush : pushSource cfg.frameSize s.upstream = (some frame, rest))
    (hdir : cfg.directApply
        (mkDirectParams cfg s.sourcePosition s.listenerPosition) frame
      = Except.ok inter)
    (hbin : cfg.binauralApply s.direction inter = Except.ok (x :: t1, b2))
    (hch : s.currentChannel = true) :
    next cfg s = (NextResult.sample x, { s with
      currentBlockOffset := 0
      upstream := rest
      currentBlock1 := x :: t1
      currentBlock2 := b2
      blocksPlayed := s.blocksPlayed + 1
      currentChannel := false }) := by
  have hstep := nextStep_refill cfg h hpush hdir hbin
  have h1 : (0 : Nat) < (x :: t1).length := by simp
  have hserve := nextStep_serve_left cfg (s := { s with
      currentBlockOffset := 0
      upstream := rest
      currentBlock1 := x :: t1
      currentBlock2 := b2
      blocksPlayed := s.blocksPlayed + 1 }) h1 hch
  rw [next_of_inr hstep]
  rw [nextLoop_succ_of_inl hserve s.upstream.length]
  rfl

lemma pulls_zero {Q V P : Type} (cfg : EffectConfig Q V P)
    (s : DecoderState Q V) : pulls cfg 0 s = ([], s) := rfl

lemma pulls_succ {Q V P : Type} (cfg : EffectConfig Q V P) (n : Nat)
    (s : DecoderState Q V) :
    pulls cfg (n + 1) s =
      ((next cfg s).1 :: (pulls cfg n (next cfg s).2).1,
        (pulls cfg n (next cfg s).2).2) := rfl

lemma take_drop_succ {Q : Type} (l : List Q) (off k : Nat)
    (h : off < l.length) :
    (l.drop off).take (k + 1) = l.get ⟨off, h⟩ :: (l.drop (off + 1)).take k := by
  rw [List.drop_eq_getElem_cons h, List.take_succ_cons]
  simp [List.get_eq_getElem]

lemma pulls_pairs {Q V P : Type} (cfg : EffectConfig Q V P) :
    ∀ (k : Nat) (s : DecoderState Q V),
    s.currentChannel = true →
    s.currentBlockOffset + k ≤ s.currentBlock1.length →
    s.currentBlockOffset + k ≤ s.currentBlock2.length →
    pulls cfg (2 * k) s =
      ((interleave ((s.currentBlock1.drop s.currentBlockOffset).take k)
          ((s.currentBlock2.drop s.currentBlockOffset).take k)).map NextResult.sample,
        { s with currentBlockOffset := s.currentBlockOffset + k }) := by
  intro k
  induction k with
  | zero =>
      intro s hch h1 h2
      obtain ⟨up, sr, ch, off, b1, b2, bp, d, sp, lp⟩ := s
      simp [pulls, interleave]
  | succ k ih =>
      intro s hch h1 h2
      obtain ⟨up, sr, ch, off, b1, b2, bp, d, sp, lp⟩ := s
      simp only at hch h1 h2
      subst hch
      have hlt1 : off < b1.length := by omega
      have hlt2 : off < b2.length := by omega
      have e1 := next_serve_left cfg
        (s := ⟨up, sr, true, off, b1, b2, bp, d, sp, lp⟩) hlt1 rfl
      have e2 := next_serve_right cfg
        (s := ⟨up, sr, false, off, b1, b2, bp, d, sp, lp⟩) hlt1 rfl hlt2
      have e3 := ih ⟨up, sr, true, off + 1, b1, b2, bp, d, sp, lp⟩ rfl
        (by simp; omega) (by simp; omega)
      have hn : 2 * (k + 1) = 2 * k + 1 + 1 := by ring
      rw [hn, pulls_succ, e1]
      simp only
      rw [pulls_succ, e2]
      simp only
      rw [e3]
      simp only
      rw [take_drop_succ b1 off k hlt1, take_drop_succ b2 off k hlt2]
      simp only [interleave, List.map_cons]
      have hoff : off + 1 + k = off + (k + 1) := by omega
      rw [hoff]

lemma chunksExact3_length : ∀ l : List Nat,
    (chunksExact3 l).length = l.length / 3
  | [] => rfl
  | [_] => by simp [chunksExact3]
  | [_, _] => by simp [chunksExact3]
  | a :: b :: c :: rest => by
      have ih := chunksExact3_length rest
      simp only [chunksExact3, List.length_cons, ih]
      omega

lemma chunksExact3_take : ∀ l : List Nat,
    chunksExact3 (l.take (3 * (l.length / 3))) = chunksExact3 l
  | [] => rfl
  | [_] => by simp [chunksExact3]
  | [_, _] => by simp [chunksExact3]
  | a :: b :: c :: rest => by
      have ih := chunksExact3_take rest
      have h3 : 3 * ((a :: b :: c :: rest).length / 3)
          = 3 * (rest.length / 3) + 3 := by
        simp only [List.length_cons]
        have : rest.length + 1 + 1 + 1 = rest.length + 3 := by omega
        rw [this, Nat.add_div_right _ (by norm_num)]
        ring
      rw [h3]
      show chunksExact3 (a :: b :: c :: rest.take (3 * (rest.length / 3)))
        = chunksExact3 (a :: b :: c :: rest)
      simp only [chunksExact3, ih]

lemma windows3_length : ∀ l : List Nat,
    (windows3 l).length = l.length - 2
  | [] => rfl
  | [_] => rfl
  | [_, _] => rfl
  | a :: b :: c :: rest => by
      have ih := windows3_length (b :: c :: rest)
      simp only [windows3, List.length_cons] at ih ⊢
      omega

lemma windows3_getD : ∀ (l : List Nat) (i : Nat), i + 2 < l.length →
    (windows3 l).getD i (0, 0, 0) = (l.getD i 0, l.getD (i + 1) 0, l.getD (i + 2) 0)
  | [], i, h => by simp at h
  | [_], i, h => by simp at h
  | [_, _], i, h => by simp at h
  | a :: b :: c :: rest, 0, _ => rfl
  | a :: b :: c :: rest, i + 1, h => by
      have ih := windows3_getD (b :: c :: rest) i (by simp at h ⊢; omega)
      simp only [windows3, List.getD] at ih ⊢
      exact ih

lemma alternateWinding_length : ∀ (j : Nat) (l : List (Nat × Nat × Nat)),
    (alternateWinding j l).length = l.length
  | _, [] => rfl
  | j, t :: rest => by
      have ih := alternateWinding_length (j + 1) rest
      simp only [alternateWinding, List.length_cons, ih]

lemma alternateWinding_getD : ∀ (l : List (Nat × Nat × Nat)) (j i : Nat),
    (alternateWinding j l).getD i (0, 0, 0) =
      if (j + i + 1) % 2 = 0 then swapTri (l.getD i (0, 0, 0))
      else l.getD i (0, 0, 0)
  | [], j, i => by
      simp [alternateWinding, List.getD, swapTri]
  | t :: rest, j, 0 => by
      simp [alternateWinding, List.getD]
  | t :: rest, j, i + 1 => by
      have ih := alternateWinding_getD rest (j + 1) i
      have hj : j + 1 + i + 1 = j + (i + 1) + 1 := by omega
      simp only [alternateWinding, List.getD, List.get?_cons_succ] at ih ⊢
      rw [ih, hj]

/-- C1. Claim: once a sample pull has signaled end-of-stream, every
subsequent pull also signals end-of-stream (`Exhausted` is terminal).
The code violates this: `current_block_offset` is reset to 0 before the
failed refill (`src/source.rs:149`) and the buffered blocks are never
cleared, so the pull after a `None` re-enters the serve branch and
replays the stale output block.  Evaluated here: a fresh decoder over an
upstream of exactly one frame (frame size 2) serves its four interleaved
samples (pulls 1-4), signals end-of-stream on pull 5, and on pull 6
returns `sample 10` — the first sample of the stale block — instead of
end-of-stream. -/
theorem C1_exhausted_not_terminal :
    (pulls intCfg 6 exhaustState).1 =
      [NextResult.sample 10, NextResult.sample 10, NextResult.sample 20,
       NextResult.sample 20, NextResult.eos, NextResult.sample 10] := rfl

/-- C2 counterexample: the claim says `sample_rate()` returns the
underlying source file's native sample rate, but `SteamDecoder::new`
hardcodes `sample_rate = 44_100` (`src/source.rs:97`) and never consults
the opened decoder: a source whose native rate is 48000 still reports
44100. -/
theorem C2_sample_rate_not_native :
    SteamDecoder.sampleRate (SteamDecoder.new (Q := Int) (V := Int) 48000 0 0 0 [])
      = 44100
    ∧ (44100 : Nat) ≠ 48000 :=
  ⟨rfl, by decide⟩

/-- C2 (amended): for every decoder produced by `SteamDecoder::new`,
`channels()` is 2, `current_frame_len()` is `None`, `total_duration()`
is `None`, and `sample_rate()` is the hardcoded constant 44100 whatever
the source's native rate is (no resampling is performed, so the reported
rate is only correct for 44.1 kHz sources). -/
theorem C2_playback_metadata (Q V : Type) (nativeRate : Nat) (d sp lp : V)
    (u : List Q) :
    SteamDecoder.channels (SteamDecoder.new nativeRate d sp lp u) = 2
    ∧ SteamDecoder.currentFrameLen (SteamDecoder.new nativeRate d sp lp u) = none
    ∧ SteamDecoder.totalDuration (SteamDecoder.new nativeRate d sp lp u) = none
    ∧ SteamDecoder.sampleRate (SteamDecoder.new nativeRate d sp lp u) = 44100 :=
  ⟨rfl, rfl, rfl, rfl⟩

/-- C3 counterexample: the claim says pulling `frame_size * 2`
interleaved samples from a fresh renderer consumes exactly two upstream
frames of mono input.  It consumes exactly one: each mono input frame
yields `frame_size` samples in each of the two output channels, i.e.
`frame_size * 2` interleaved samples.  With frame size 2 and upstream
`[1,2,3,4,5,6]`, after 4 pulls the remaining upstream is `[3,4,5,6]`:
2 samples (one frame) were consumed, not `frame_size * 2 = 4`. -/
theorem C3_consumes_one_frame_not_two :
    (pulls intCfg (intCfg.frameSize * 2) freshSixState).2.upstream = [3, 4, 5, 6]
    ∧ freshSixState.upstream.length
        - (pulls intCfg (intCfg.frameSize * 2) freshSixState).2.upstream.length
      = intCfg.frameSize
    ∧ intCfg.frameSize ≠ intCfg.frameSize * 2 :=
  ⟨rfl, rfl, by decide⟩

/-- C3 (amended): pulling `frame_size * 2` interleaved samples from a
fresh renderer consumes exactly ONE upstream frame worth of mono input
(`frame_size` samples), and the pulled samples are the two processed
output channels interleaved L,R,L,R,...  Stated for any effect
configuration whose effect applications succeed on the first frame and
meet the boundary contract (output channel blocks of length
`frame_size`). -/
theorem C3_fresh_renderer_round_trip {Q V P : Type} (cfg : EffectConfig Q V P)
    (nativeRate : Nat) (d sp lp : V) (u : List Q)
    (frame rest inter b1 b2 : List Q)
    (hpush : pushSource cfg.frameSize u = (some frame, rest))
    (hdir : cfg.directApply (mkDirectParams cfg sp lp) frame = Except.ok inter)
    (hbin : cfg.binauralApply d inter = Except.ok (b1, b2))
    (hb1 : b1.length = cfg.frameSize) (hb2 : b2.length = cfg.frameSize)
    (hfs : 0 < cfg.frameSize) :
    (pulls cfg (cfg.frameSize * 2) (SteamDecoder.new nativeRate d sp lp u)).1
      = (interleave b1 b2).map NextResult.sample
    ∧ (pulls cfg (cfg.frameSize * 2) (SteamDecoder.new nativeRate d sp lp u)).2.upstream
      = rest
    ∧ u.length = rest.length + cfg.frameSize := by
  obtain ⟨m, hm⟩ : ∃ m, cfg.frameSize = m + 1 := ⟨cfg.frameSize - 1, by omega⟩
  match b1, b2 with
  | [], _ => simp [hm] at hb1
  | _, [] => simp [hm] at hb2
  | x :: t1, y :: t2 =>
    have ht1 : t1.length = m := by simp [hm] at hb1; omega
    have ht2 : t2.length = m := by simp [hm] at hb2; omega
    have e1 := next_refill_serve cfg
      (s := SteamDecoder.new nativeRate d sp lp u)
      (by simp [SteamDecoder.new]) hpush hdir hbin rfl
    have e2 := next_serve_right cfg
      (s := ⟨rest, 44100, false, 0, x :: t1, y :: t2, 1, d, sp, lp⟩)
      (by simp) rfl (by simp)
    have e3 := pulls_pairs cfg m
      ⟨rest, 44100, true, 1, x :: t1, y :: t2, 1, d, sp, lp⟩ rfl
      (by simp; omega) (by simp; omega)
    have hn : cfg.frameSize * 2 = 2 * m + 1 + 1 := by omega
    rw [hn, pulls_succ, e1]
    simp only [SteamDecoder.new]
    rw [pulls_succ, e2]
    simp only
    rw [e3]
    simp only
    obtain ⟨hfr, hrest, hle⟩ := pushSource_some hpush
    refine ⟨?_, by trivial, ?_⟩
    · simp only [List.drop_one, List.tail_cons, List.drop_succ_cons, List.drop_zero]
      rw [List.take_of_length_le (by omega), List.take_of_length_le (by omega)]
      simp [interleave]
    · subst hrest
      have := List.length_drop cfg.frameSize u
      omega

/-- C3 witness: the amended round-trip theorem evaluated at the concrete
configuration `intCfg` (frame size 2) and upstream `[1,2,3,4,5,6]`. -/
theorem C3_fresh_renderer_round_trip_witness :
    (pulls intCfg (intCfg.frameSize * 2) freshSixState).1
      = (interleave [1, 2] [1, 2]).map NextResult.sample
    ∧ (pulls intCfg (intCfg.frameSize * 2) freshSixState).2.upstream = [3, 4, 5, 6]
    ∧ freshSixState.upstream.length = [3, 4, 5, 6].length + intCfg.frameSize :=
  C3_fresh_renderer_round_trip intCfg 44100 0 0 0 [1, 2, 3, 4, 5, 6]
    [1, 2] [3, 4, 5, 6] [1, 2] [1, 2] [1, 2] rfl rfl rfl rfl rfl (by decide)

/-- C4. Claim: an effect-application failure must not panic and must
surface as a playback-stream error that stops only that sound.  The code
violates this: both `apply_to_buffer` results are `unwrap`ped
(`src/source.rs:210-222`), so an `Err` panics the pulling thread instead
of ending the stream.  Evaluated here: with a failing direct effect, the
first refill pull panics — a distinct outcome from the end-of-stream
signal the claim requires. -/
theorem C4_effect_failure_panics :
    (next failCfg (SteamDecoder.new 44100 0 0 0 [5, 6])).1 = NextResult.panicked
    ∧ (NextResult.panicked : NextResult Int) ≠ NextResult.eos :=
  ⟨rfl, by decide⟩

/-- C5. For every refill, the direct effect is applied first, to the
pre-binaural mono input frame with the direct-path parameters (distance
attenuation, air absorption, directivity) recomputed from the current
source/listener positions, producing the mono intermediate frame
`inter`; the binaural effect is applied last, to `inter` with the
current direction, and its two-channel output is stored unchanged as the
decoder's output blocks — no direct-path effect touches the signal after
binauralization.  Stated for every effect configuration: the stored
blocks are exactly `binauralApply direction (directApply params input)`,
and the first served sample comes from that composition's left
channel. -/
theorem C5_direct_effect_then_binaural {Q V P : Type} (cfg : EffectConfig Q V P)
    (s : DecoderState Q V) (frame rest inter : List Q) (x : Q) (t1 b2 : List Q)
    (h : ¬ s.currentBlockOffset < s.currentBlock1.length)
    (hpush : pushSource cfg.frameSize s.upstream = (some frame, rest))
    (hdir : cfg.directApply
        (mkDirectParams cfg s.sourcePosition s.listenerPosition) frame
      = Except.ok inter)
    (hbin : cfg.binauralApply s.direction inter = Except.ok (x :: t1, b2))
    (hch : s.currentChannel = true) :
    (next cfg s).2.currentBlock1 = x :: t1
    ∧ (next cfg s).2.currentBlock2 = b2
    ∧ (next cfg s).1 = NextResult.sample x
    ∧ (next cfg s).2.blocksPlayed = s.blocksPlayed + 1 := by
  rw [next_refill_serve cfg h hpush hdir hbin hch]
  exact ⟨rfl, rfl, rfl, rfl⟩

/-- C5 witness: the effect-order theorem evaluated at `intCfg` on a
fresh decoder over the frame `[7, 8]`. -/
theorem C5_direct_effect_then_binaural_witness :
    (next intCfg (SteamDecoder.new 48000 0 0 0 [7, 8])).2.currentBlock1 = [7, 8]
    ∧ (next intCfg (SteamDecoder.new 48000 0 0 0 [7, 8])).2.currentBlock2 = [7, 8]
    ∧ (next intCfg (SteamDecoder.new 48000 0 0 0 [7, 8])).1 = NextResult.sample 7
    ∧ (next intCfg (SteamDecoder.new 48000 0 0 0 [7, 8])).2.blocksPlayed = 1 :=
  C5_direct_effect_then_binaural intCfg (SteamDecoder.new 48000 0 0 0 [7, 8])
    [7, 8] [] [7, 8] 7 [8] [7, 8] (by decide) rfl rfl rfl rfl

/-- C6. While the read cursor is inside the current output block: with
the channel flag at channel 0 the pull returns `current_block1[offset]`
and only flips the flag (the offset is unchanged); with the flag at
channel 1 the pull returns `current_block2[offset]`, advances the offset
by one and flips the flag back — so the per-channel offset advances only
after the right-channel sample of a pair, and a fresh decoder starts on
channel 0, emitting each output frame interleaved L,R,L,R,... -/
theorem C6_interleaved_serving {Q V P : Type} (cfg : EffectConfig Q V P)
    (s : DecoderState Q V) (nativeRate : Nat) (d sp lp : V) (u : List Q)
    (h1 : s.currentBlockOffset < s.currentBlock1.length) :
    (s.currentChannel = true →
      next cfg s = (NextResult.sample (s.currentBlock1.get ⟨s.currentBlockOffset, h1⟩),
        { s with currentChannel := false }))
    ∧ (s.currentChannel = false →
      ∀ h2 : s.currentBlockOffset < s.currentBlock2.length,
        next cfg s = (NextResult.sample (s.currentBlock2.get ⟨s.currentBlockOffset, h2⟩),
          { s with
            currentBlockOffset := s.currentBlockOffset + 1
            currentChannel := true }))
    ∧ (SteamDecoder.new nativeRate d sp lp u : DecoderState Q V).currentChannel = true :=
  ⟨fun hch => next_serve_left cfg h1 hch,
   fun hch h2 => next_serve_right cfg h1 hch h2,
   rfl⟩

/-- C6 witness: the serving theorem evaluated on concrete mid-stream
states: the left pull serves block-1 sample 1 without advancing the
offset; the right pull serves block-2 sample 3 and advances the offset. -/
theorem C6_interleaved_serving_witness :
    next intCfg serveStateL
      = (NextResult.sample 1, ⟨[], 44100, false, 0, [1, 2], [3, 4], 1, 0, 0, 0⟩)
    ∧ next intCfg serveStateR
      = (NextResult.sample 3, ⟨[], 44100, true, 1, [1, 2], [3, 4], 1, 0, 0, 0⟩) :=
  ⟨(C6_interleaved_serving intCfg serveStateL 44100 0 0 0 [] (by decide)).1 rfl,
   (C6_interleaved_serving intCfg serveStateR 44100 0 0 0 [] (by decide)).2.1 rfl
     (by decide)⟩

/-- C7 counterexample: the claim says a new renderer does not construct
its own context, HRTF or simulator.  `SteamDecoder::new` constructs all
three (plus its two effects) afresh (`src/source.rs:79-94`): in a run
where the plugin builds its resource and then two decoders are created,
the first decoder's context, HRTF and simulator are all distinct from
the plugin's, and the two decoders' contexts are distinct from each
other. -/
theorem C7_decoder_builds_own_objects :
    decoderRun1.1.contextId ≠ pluginRun.1.contextId
    ∧ decoderRun1.1.hrtfId ≠ pluginRun.1.hrtfId
    ∧ decoderRun1.1.simulatorId ≠ pluginRun.1.simulatorId
    ∧ decoderRun1.1.contextId ≠ decoderRun2.1.contextId := by
  decide

/-- C7 (amended): `SpatialAudioPlugin::build` constructs one
context/HRTF/simulator triple and stores it as the shared
`SpatialAudioSettings` resource, but every `SteamDecoder::new`
additionally constructs five fresh native objects of its own (context,
HRTF, simulator, binaural effect, direct effect); successive decoders
never reuse the plugin's objects or each other's. -/
theorem C7_construction_per_decoder (a : Alloc) :
    (steamDecoderNewResources a).2.counter = a.counter + 5
    ∧ (spatialAudioPluginBuildResources a).2.counter = a.counter + 3
    ∧ (steamDecoderNewResources a).1.contextId
        ≠ (steamDecoderNewResources (steamDecoderNewResources a).2).1.contextId
    ∧ (steamDecoderNewResources a).1.hrtfId
        ≠ (steamDecoderNewResources (steamDecoderNewResources a).2).1.hrtfId
    ∧ (steamDecoderNewResources a).1.simulatorId
        ≠ (steamDecoderNewResources (steamDecoderNewResources a).2).1.simulatorId := by
  obtain ⟨n⟩ := a
  refine ⟨rfl, rfl, ?_, ?_, ?_⟩
  all_goals
    simp [steamDecoderNewResources, allocFresh]
    try omega

/-- C8. Direction-normalization invariant (settled against the
spec-modelled `directionWrite`, since no code in the repository writes
the shared direction cell): every written direction has euclidean length
exactly 0 or 1 — over the reals no NaN can arise, and the coincident
guard is precisely what avoids the division by zero — and when the
source and listener positions coincide the written direction is exactly
the zero vector. -/
theorem C8_direction_unit_or_zero (s l : Vec3R) :
    (Real.sqrt (Vec3R.normSq (directionWrite s l)) = 0
      ∨ Real.sqrt (Vec3R.normSq (directionWrite s l)) = 1)
    ∧ (s = l → directionWrite s l = Vec3R.zero) := by
  constructor
  · by_cases h : Vec3R.normSq (Vec3R.sub l s) = 0
    · left
      rw [directionWrite, if_pos h]
      simp [Vec3R.normSq, Vec3R.zero]
    · right
      rw [directionWrite, if_neg h]
      have hq : (0 : Real) ≤ Vec3R.normSq (Vec3R.sub l s) := by
        simp only [Vec3R.normSq]
        positivity
      have hsm : Vec3R.normSq (Vec3R.smul
            (Real.sqrt (Vec3R.normSq (Vec3R.sub l s)))⁻¹ (Vec3R.sub l s))
          = ((Real.sqrt (Vec3R.normSq (Vec3R.sub l s)))⁻¹) ^ 2
              * Vec3R.normSq (Vec3R.sub l s) := by
        simp only [Vec3R.smul, Vec3R.normSq]
        ring
      rw [hsm, inv_pow, Real.sq_sqrt hq, inv_mul_cancel₀ h, Real.sqrt_one]
  · intro hsl
    subst hsl
    have h0 : Vec3R.normSq (Vec3R.sub s s) = 0 := by
      simp [Vec3R.normSq, Vec3R.sub]
    rw [directionWrite, if_pos h0]

/-- C8 witness: coincident source and listener positions produce exactly
the zero direction. -/
theorem C8_direction_unit_or_zero_witness :
    directionWrite Vec3R.zero Vec3R.zero = Vec3R.zero :=
  (C8_direction_unit_or_zero Vec3R.zero Vec3R.zero).2 rfl

/-- C9 counterexample: the claim says the conversion fails with
`NoVertices` exactly when the mesh lacks a `Float32x3` position
attribute.  But the topology check runs first: a mesh with an index
buffer, `LineList` topology and no position attribute fails with
`NonTrianglePrimitiveTopology`, not `NoVertices`. -/
theorem C9_topology_error_wins :
    lineListMesh.positionAttribute = none
    ∧ audioMeshTryFrom lineListMesh
        = Except.error
            (AudioMeshError.NonTrianglePrimitiveTopology PrimitiveTopology.LineList)
    ∧ AudioMeshError.NonTrianglePrimitiveTopology PrimitiveTopology.LineList
        ≠ AudioMeshError.NoVertices :=
  ⟨rfl, rfl, by decide⟩

/-- C9 (amended): with an index buffer present and a topology that is
neither triangle list nor triangle strip, the conversion fails with
`NonTrianglePrimitiveTopology` — this check runs first, so it wins even
when the position attribute is also missing; in the remaining cases (no
index buffer, or a triangular topology) the conversion fails with
`NoVertices` exactly when the mesh lacks a `Float32x3` position
attribute; and a triangle strip converts to one triangle per 3-index
window, with the first two indices of every second triangle swapped. -/
theorem C9_conversion_contract (m : Mesh) :
    (∀ idx, m.indices = some idx →
      m.primitiveTopology ≠ PrimitiveTopology.TriangleList →
      m.primitiveTopology ≠ PrimitiveTopology.TriangleStrip →
      audioMeshTryFrom m
        = Except.error
            (AudioMeshError.NonTrianglePrimitiveTopology m.primitiveTopology))
    ∧ ((m.indices = none
          ∨ m.primitiveTopology = PrimitiveTopology.TriangleList
          ∨ m.primitiveTopology = PrimitiveTopology.TriangleStrip) →
        (audioMeshTryFrom m = Except.error AudioMeshError.NoVertices
          ↔ ¬ ∃ vs, m.positionAttribute
                = some (VertexAttributeValues.Float32x3 vs)))
    ∧ (∀ l vs, m.indices = some (MeshIndices.u32 l) →
        m.primitiveTopology = PrimitiveTopology.TriangleStrip →
        m.positionAttribute = some (VertexAttributeValues.Float32x3 vs) →
        ∃ am, audioMeshTryFrom m = Except.ok am
          ∧ am.triangles.length = l.length - 2
          ∧ ∀ i, i + 2 < l.length →
              am.triangles.getD i (0, 0, 0) =
                if (i + 1) % 2 = 0
                then (l.getD (i + 1) 0, l.getD i 0, l.getD (i + 2) 0)
                else (l.getD i 0, l.getD (i + 1) 0, l.getD (i + 2) 0)) := by
  obtain ⟨mi, mt, mp⟩ := m
  refine ⟨?_, ?_, ?_⟩
  · intro idx hidx hn1 hn2
    simp only at hidx hn1 hn2 ⊢
    subst hidx
    cases mt <;> simp_all [audioMeshTryFrom, trianglesOf]
  · intro hcase
    simp only at hcase
    have htris : ∃ ts, trianglesOf ⟨mi, mt, mp⟩ = Except.ok ts := by
      rcases hcase with h | h | h
      · subst h
        exact ⟨[], rfl⟩
      · subst h
        cases mi with
        | none => exact ⟨[], rfl⟩
        | some idx => exact ⟨_, rfl⟩
      · subst h
        cases mi with
        | none => exact ⟨[], rfl⟩
        | some idx => exact ⟨_, rfl⟩
    obtain ⟨ts, hts⟩ := htris
    cases mp with
    | none =>
        unfold audioMeshTryFrom
        rw [hts]
        simp
    | some vav =>
        cases vav with
        | Float32x3 vs =>
            unfold audioMeshTryFrom
            rw [hts]
            simp
        | otherLayout =>
            unfold audioMeshTryFrom
            rw [hts]
            simp
  · intro l vs hidx htopo hpos
    simp only at hidx htopo hpos
    subst hidx
    subst htopo
    subst hpos
    refine ⟨⟨vs, alternateWinding 0 (windows3 l), [Material.GENERIC],
      (alternateWinding 0 (windows3 l)).map (fun _ => 0)⟩, rfl, ?_, ?_⟩
    · simp [alternateWinding_length, windows3_length]
    · intro i hi
      show (alternateWinding 0 (windows3 l)).getD i (0, 0, 0) = _
      rw [alternateWinding_getD (windows3 l) 0 i]
      simp only [Nat.zero_add, windows3_getD l i hi, swapTri]

/-- C9 witness: the amended conversion contract applied to a concrete
`LineStrip` mesh with indices present: the conversion fails with the
non-triangle-topology error. -/
theorem C9_conversion_contract_witness :
    audioMeshTryFrom lineStripMesh
      = Except.error
          (AudioMeshError.NonTrianglePrimitiveTopology PrimitiveTopology.LineStrip) :=
  (C9_conversion_contract lineStripMesh).1 (MeshIndices.u32 [0, 1]) rfl
    (by decide) (by decide)

/-- C10. A mesh with a `Float32x3` position attribute and no index
buffer converts successfully to an empty triangle list and empty
material-index list regardless of its primitive topology (the topology
check at `src/source.rs:402` is only reached when indices are present);
and for a `TriangleList` whose index count is not a multiple of 3, the
trailing one or two indices are silently dropped: the conversion result
equals the result on the indices truncated to the largest multiple of 3,
and the triangle count is the floor of a third of the index count. -/
theorem C10_no_indices_and_truncation (m : Mesh) (vs : List (Rat × Rat × Rat))
    (hpos : m.positionAttribute = some (VertexAttributeValues.Float32x3 vs)) :
    (m.indices = none →
      audioMeshTryFrom m = Except.ok ⟨vs, [], [Material.GENERIC], []⟩)
    ∧ (∀ l, m.indices = some (MeshIndices.u32 l) →
      m.primitiveTopology = PrimitiveTopology.TriangleList →
      audioMeshTryFrom m
          = audioMeshTryFrom
              { m with indices := some (MeshIndices.u32 (l.take (3 * (l.length / 3)))) }
      ∧ (audioMeshTrianglesD m).length = l.length / 3) := by
  obtain ⟨mi, mt, mp⟩ := m
  simp only at hpos
  subst hpos
  constructor
  · intro hnone
    simp only at hnone
    subst hnone
    rfl
  · intro l hidx htopo
    simp only at hidx htopo
    subst hidx
    subst htopo
    constructor
    · have h := chunksExact3_take l
      simp [audioMeshTryFrom, trianglesOf, castIndices, h]
    · simp [audioMeshTrianglesD, audioMeshTryFrom, trianglesOf, castIndices,
        chunksExact3_length]

/-- C10 witness: the conversion theorem evaluated on a position-only
mesh (empty triangles and material indices on a `PointList` topology)
and on a four-index `TriangleList` (same result as its three-index
truncation; one triangle). -/
theorem C10_no_indices_and_truncation_witness :
    audioMeshTryFrom noIndexMesh
        = Except.ok ⟨[(1, 2, 3)], [], [Material.GENERIC], []⟩
    ∧ audioMeshTryFrom listMesh4
        = audioMeshTryFrom
            ⟨some (MeshIndices.u32 [0, 1, 2]), PrimitiveTopology.TriangleList,
              some (VertexAttributeValues.Float32x3 [(0, 0, 0)])⟩
    ∧ (audioMeshTrianglesD listMesh4).length = [0, 1, 2, 3].length / 3 :=
  ⟨(C10_no_indices_and_truncation noIndexMesh [(1, 2, 3)] rfl).1 rfl,
   ((C10_no_indices_and_truncation listMesh4 [(0, 0, 0)] rfl).2 [0, 1, 2, 3]
      rfl rfl).1,
   ((C10_no_indices_and_truncation listMesh4 [(0, 0, 0)] rfl).2 [0, 1, 2, 3]
      rfl rfl).2⟩
